import Mathlib

/-!
Shallow embedding of `nbconvert/filters/markdown.py`: markdown conversion
filters (HTML, LaTeX, RST, AsciiDoc) that delegate to an external converter
(pandoc) or an in-process renderer (mistune), plus the regex-based AsciiDoc
post-processing workaround.

The external converter is modelled as a function parameter receiving the
exact invocation record (`PandocCall`), mirroring the spec's "stubbed/mocked
external converter".  The two `re.sub` calls of `markdown2asciidoc` are
embedded as explicit scanners with Python's leftmost-match, greedy-with-
backtracking semantics, over the ASCII fragment of the `\w` class.
-/

namespace NbMd

/-- Python `\w` on the ASCII fragment: letters, digits, underscore. -/
def isWordChar (c : Char) : Bool := c.isAlphanum || c == '_'

/-- Inner character class `[\w \n-]` of the first substitution's regex
`\b__([\w \n-]+)__([:,.\n\)])`. -/
def isInnerA (c : Char) : Bool := isWordChar c || c == ' ' || c == '\n' || c == '-'

/-- Trailing character class `[:,.\n\)]` of the first substitution's regex:
colon, comma, period, newline, close-paren. -/
def isTrailA (c : Char) : Bool := c == ':' || c == ',' || c == '.' || c == '\n' || c == ')'

/-- Inner character class of the second substitution's regex (the class
written, in order, `\w` `\/` `-` `:` `\.`).  In Python's regex syntax the
backslash-slash, hyphen, colon sequence is a character range from `/` (0x2F)
to `:` (0x3A), so the class is `\w` together with the characters from `/` to
`:` and `.` — a literal hyphen is NOT in the class. -/
def isInnerB (c : Char) : Bool :=
  isWordChar c || ('/' ≤ c && c ≤ ':') || c == '.'

/-- Attempt to match the closing `__` plus one trailing-class character of
regex A at the head of the list; returns the trailing character and the
remainder. -/
def closeA (l : List Char) : Option (Char × List Char) :=
  match l with
  | a :: b :: t :: rest =>
    if a = '_' ∧ b = '_' ∧ isTrailA t = true then some (t, rest) else none
  | _ => none

/-- Greedy continuation of regex A's inner group `([\w \n-]+)` with
backtracking: consume as many inner-class characters as possible, then close
with `__` and a trailing-class character; on failure of the longer
alternative, close earlier.  Returns (inner suffix, trailing char, rest). -/
def contA : List Char → Option (List Char × Char × List Char)
  | [] => none
  | c :: rest =>
    match (if isInnerA c = true
           then (contA rest).map (fun p => (c :: p.1, p.2.1, p.2.2))
           else none) with
    | some res => some res
    | none => (closeA (c :: rest)).map (fun p => ([], p.1, p.2))

/-- Attempt to match regex A (`__` + nonempty inner + `__` + trailing char)
at the head of the list, greedily.  The word-boundary `\b` is checked by the
caller.  Returns (inner group, trailing char, rest). -/
def matchA (l : List Char) : Option (List Char × Char × List Char) :=
  match l with
  | a :: b :: c :: rest =>
    if a = '_' ∧ b = '_' ∧ isInnerA c = true
    then (contA rest).map (fun p => (c :: p.1, p.2.1, p.2.2))
    else none
  | _ => none

/-- Scanner for the first substitution
`re.sub(r"\b__([\w \n-]+)__([:,.\n\)])", r"_\1_\2", s)`: leftmost
non-overlapping matches, replacement `_` + inner + `_` + trailing char.
`prevWord` tracks whether the previous character of the original string is a
word character (for `\b`: since `_` is a word character, the boundary holds
exactly when the previous character is not).  Fuel is the remaining length. -/
def goA : Nat → Bool → List Char → List Char
  | _, _, [] => []
  | 0, _, l => l
  | Nat.succ n, prevWord, c :: rest =>
    if prevWord then c :: goA n (isWordChar c) rest
    else
      match matchA (c :: rest) with
      | some (inner, t, r) => '_' :: (inner ++ '_' :: t :: goA n (isWordChar t) r)
      | none => c :: goA n (isWordChar c) rest

/-- The first substitution applied to a whole string (as a character list). -/
def subA (l : List Char) : List Char := goA l.length false l

/-- Attempt to match the closing `__)` of regex B at the head of the list. -/
def closeB (l : List Char) : Option (List Char) :=
  match l with
  | a :: b :: t :: rest =>
    if a = '_' ∧ b = '_' ∧ t = ')' then some rest else none
  | _ => none

/-- Greedy continuation of regex B's nonempty inner group (over `isInnerB`)
with backtracking. Returns (inner suffix, rest). -/
def contB : List Char → Option (List Char × List Char)
  | [] => none
  | c :: rest =>
    match (if isInnerB c = true
           then (contB rest).map (fun p => (c :: p.1, p.2))
           else none) with
    | some res => some res
    | none => (closeB (c :: rest)).map (fun r => ([], r))

/-- Attempt to match regex B (`(__` + nonempty inner + `__)`) at the head of
the list, greedily. Returns (inner group, rest). -/
def matchB (l : List Char) : Option (List Char × List Char) :=
  match l with
  | a :: b :: c :: d :: rest =>
    if a = '(' ∧ b = '_' ∧ c = '_' ∧ isInnerB d = true
    then (contB rest).map (fun p => (d :: p.1, p.2))
    else none
  | _ => none

/-- Scanner for the second substitution (the `re.sub` over the parenthesized
link-path regex, replacement `(_\1_)`): leftmost non-overlapping matches,
replacement `(_` + inner + `_)`. -/
def goB : Nat → List Char → List Char
  | _, [] => []
  | 0, l => l
  | Nat.succ n, c :: rest =>
    match matchB (c :: rest) with
    | some (inner, r) => '(' :: '_' :: (inner ++ '_' :: ')' :: goB n r)
    | none => c :: goB n rest

/-- The second substitution applied to a whole string (as a character list). -/
def subB (l : List Char) : List Char := goB l.length l

/-- `"__" in s`: the guard of the post-processing step. -/
def containsDD : List Char → Bool
  | '_' :: '_' :: _ => true
  | _ :: rest => containsDD rest
  | [] => false

/-- The AsciiDoc post-processing fixup of `markdown2asciidoc` (workaround for
pandoc issue 3068): if the output contains `__`, apply substitution A then
substitution B, in that order; otherwise return it unchanged. -/
def fixAsciidoc (l : List Char) : List Char :=
  if containsDD l then subB (subA l) else l

/-- `fixAsciidoc` on `String`. -/
def fixAsciidocStr (s : String) : String := ⟨fixAsciidoc s.data⟩

/-- Split a character list on `.` (the component structure of a dotted
version string); a list with no dot is one component, and every dot starts
a new component. -/
def splitDots : List Char → List (List Char)
  | [] => [[]]
  | c :: rest =>
    if c = '.' then [] :: splitDots rest
    else
      match splitDots rest with
      | [] => [[c]]
      | h :: t => (c :: h) :: t

/-- Decimal value of a digit list, accumulator style. -/
def digitsToNatAux (acc : Nat) : List Char → Nat
  | [] => acc
  | c :: rest => digitsToNatAux (acc * 10 + (c.toNat - '0'.toNat)) rest

/-- Numeric value of one version component: its decimal value when it is a
nonempty string of digits, `0` otherwise. -/
def componentToNat (l : List Char) : Nat :=
  if l ≠ [] ∧ l.all Char.isDigit = true then digitsToNatAux 0 l else 0

/-- Modelled from the spec: the semantic-version comparison abstraction
(`packaging.version.Version`, an external library), restricted to dotted
numeric release strings as produced by the version-query collaborator.  The
release components of the version string, one per dot-separated field. -/
def parseRelease (s : String) : List Nat :=
  (splitDots s.data).map componentToNat

/-- Drop trailing zero components: semantic version comparison pads the
shorter release tuple with zeros, which is equivalent to comparing the
tuples lexicographically after stripping trailing zeros. -/
def stripZeros (l : List Nat) : List Nat :=
  (l.reverse.dropWhile (fun n => n == 0)).reverse

/-- Lexicographic comparison of release tuples. -/
def lexCmp : List Nat → List Nat → Ordering
  | [], [] => Ordering.eq
  | [], _ :: _ => Ordering.lt
  | _ :: _, [] => Ordering.gt
  | x :: xs, y :: ys =>
    match compare x y with
    | Ordering.eq => lexCmp xs ys
    | o => o

/-- Modelled from the spec: semantic comparison of two dotted version
strings ("3.0" compares greater than "2.9" and "10.0" greater than "3.0"). -/
def versionCmp (a b : String) : Ordering :=
  lexCmp (stripZeros (parseRelease a)) (stripZeros (parseRelease b))

/-- `Version(a) >= Version(b)` of the source, under the version model. -/
def versionGE (a b : String) : Bool :=
  match versionCmp a b with
  | Ordering.lt => false
  | _ => true

/-- `Version(a) < Version(b)` under the version model. -/
def versionLT (a b : String) : Bool :=
  match versionCmp a b with
  | Ordering.lt => true
  | _ => false

/-- Plain lexical (character-by-character) comparison of strings, the
comparison the spec warns against using for version strings. -/
def lexCharLt : List Char → List Char → Bool
  | [], [] => false
  | [], _ :: _ => true
  | _ :: _, [] => false
  | x :: xs, y :: ys =>
    if x < y then true else if y < x then false else lexCharLt xs ys

/-- The reader format every filter fixes: pandoc's extended markdown dialect
permitting list items without a preceding blank line. -/
def _MARKDOWN_FMT : String := "markdown+lists_without_preceding_blankline"

/-- One invocation of the external converter `convert_pandoc`: the source
text piped in, the reader format, the writer format, and the extra
command-line arguments. The converter itself is an external collaborator;
filters are parameterized by a function consuming this record. -/
structure PandocCall where
  source : String
  from_format : String
  to_format : String
  extra_args : Option (List String)

/-- Python's `x or d` for an optional list: `None` and the empty list are
falsy, so both select the default. -/
def pyOr (x : Option (List String)) (d : List String) : List String :=
  match x with
  | none => d
  | some l => if l.isEmpty then d else l

/-- Lines 79-84 of `markdown2asciidoc`: the heading-flag selection.
`atx_args` starts as `--atx-headers`; if a pandoc version is reported
(truthy, i.e. a nonempty string) and it compares at least "3.0", it becomes
`--markdown-headings=atx`. -/
def asciidocAtxArgs : Option String → List String
  | none => ["--atx-headers"]
  | some v =>
    if (!(v == "")) && versionGE v "3.0"
    then ["--markdown-headings=atx"]
    else ["--atx-headers"]

/-- `markdown2latex(source, markup=_MARKDOWN_FMT, extra_args=None)`: one
`convert_pandoc` call with writer "latex", extra arguments passed through
unchanged.  The `markup` parameter defaults to `_MARKDOWN_FMT` at the call
sites this spec concerns. -/
def markdown2latex (conv : PandocCall → String) (source markup : String)
    (extra_args : Option (List String)) : String :=
  conv ⟨source, markup, "latex", extra_args⟩

/-- `markdown2html_pandoc(source, extra_args=None)`: defaults falsy extra
arguments to `--mathjax`, then one `convert_pandoc` call with writer
"html". -/
def markdown2html_pandoc (conv : PandocCall → String) (source : String)
    (extra_args : Option (List String)) : String :=
  conv ⟨source, _MARKDOWN_FMT, "html", some (pyOr extra_args ["--mathjax"])⟩

/-- `markdown2asciidoc(source, extra_args=None)`: select the heading flag
from the detected pandoc version, default falsy extra arguments to it, run
one `convert_pandoc` call with writer "asciidoc", and post-process the
output with the double-underscore fixup. -/
def markdown2asciidoc (pandoc_version : Option String)
    (conv : PandocCall → String) (source : String)
    (extra_args : Option (List String)) : String :=
  fixAsciidocStr
    (conv ⟨source, _MARKDOWN_FMT, "asciidoc",
           some (pyOr extra_args (asciidocAtxArgs pandoc_version))⟩)

/-- `markdown2rst(source, extra_args=None)`: one `convert_pandoc` call with
writer "rst", extra arguments passed through unchanged. -/
def markdown2rst (conv : PandocCall → String) (source : String)
    (extra_args : Option (List String)) : String :=
  conv ⟨source, _MARKDOWN_FMT, "rst", extra_args⟩

/-- The message of the deferred ImportError raised by the fallback
`markdown2html_mistune` stub (the f-string of line 23), carrying the
original load-time failure reason. -/
def mistuneMessage (importError : String) : String :=
  "markdown2html requires mistune: " ++ importError

/-- Module-level try/except of lines 15-24: if the in-process renderer
imported, `markdown2html_mistune` is it; otherwise it is a stub that fails
(only when called) with the deferred ImportError message.  `mistune` is the
renderer when its import succeeded; `importError` is the recorded load-time
failure reason.  Either way the definition — like loading the module — is a
total function that always succeeds. -/
def markdown2html_mistune (mistune : Option (String → String))
    (importError : String) (source : String) : Except String String :=
  match mistune with
  | some render => Except.ok (render source)
  | none => Except.error (mistuneMessage importError)

/-- Line 96: `markdown2html = markdown2html_mistune` — the in-process
renderer is the default HTML filter. -/
def markdown2html : Option (String → String) → String → String →
    Except String String :=
  markdown2html_mistune

/-- A concrete converter stub used by witnesses: returns the first extra
argument of the call. -/
def convHead : PandocCall → String :=
  fun c => (c.extra_args.getD []).headD ""

/-! Helper lemmas about the substitution scanners. -/

/-- On an empty list a scan of the first substitution yields the empty
list, whatever the fuel. -/
theorem goA_nil (n : Nat) (pw : Bool) : goA n pw [] = [] := by
  cases n <;> rfl

/-- The close attempt of regex A fails on a one-element list. -/
theorem closeA_one (c : Char) : closeA [c] = none := rfl

/-- The inner-group continuation of regex A fails on a one-element list. -/
theorem contA_single (c : Char) : contA [c] = none := by
  cases h : isInnerA c <;> simp [contA, h, closeA]

/-- The inner-group continuation of regex A fails on an underscore followed
by a single character: no room for the closing `__` plus trailer. -/
theorem contA_pair (c : Char) : contA ['_', c] = none := by
  have h1 : isInnerA '_' = true := by decide
  have h2 : closeA ['_', c] = none := rfl
  simp [contA, h1, contA_single, h2, closeA_one]

/-- Greedy continuation over an inner-class word followed by exactly the
closing `__` and a trailing-class character: the whole word is the inner
group and nothing remains. -/
theorem contA_ww (w : List Char) (c : Char) (hw : w.all isInnerA = true)
    (hc : isTrailA c = true) :
    contA (w ++ '_' :: '_' :: [c]) = some (w, c, []) := by
  induction w with
  | nil =>
    have h1 : isInnerA '_' = true := by decide
    simp [contA, h1, contA_pair, closeA, hc]
  | cons a w ih =>
    simp only [List.all_cons, Bool.and_eq_true] at hw
    simp [contA, hw.1, ih hw.2]

/-- Regex A matches `__` + inner word + `__` + trailing character exactly,
capturing the word. -/
theorem matchA_ww (a : Char) (w : List Char) (c : Char) (haa : isInnerA a = true)
    (hw : w.all isInnerA = true) (hc : isTrailA c = true) :
    matchA ('_' :: '_' :: a :: (w ++ '_' :: '_' :: [c])) = some (a :: w, c, []) := by
  simp [matchA, haa, contA_ww w c hw hc]

/-- Regex B cannot match at a position whose first character is not an
open paren. -/
theorem matchB_none (c : Char) (rest : List Char) (hc : c ≠ '(') :
    matchB (c :: rest) = none := by
  match rest with
  | [] => rfl
  | [b] => rfl
  | [b, d] => rfl
  | b :: d :: e :: t => simp [matchB, hc]

/-- The second substitution leaves any list without an open paren
unchanged. -/
theorem goB_no_lp (n : Nat) (l : List Char) (h : ∀ x ∈ l, x ≠ '(') :
    goB n l = l := by
  induction n generalizing l with
  | zero => cases l <;> rfl
  | succ n ih =>
    cases l with
    | nil => rfl
    | cons x rest =>
      have hx : x ≠ '(' := h x (by simp)
      simp [goB, matchB_none x rest hx]
      exact ih rest (fun y hy => h y (by simp [hy]))

/-- Inner-class characters of regex A are never an open paren. -/
theorem isInnerA_ne_lp (x : Char) (h : isInnerA x = true) : x ≠ '(' := by
  intro heq; subst heq; exact absurd h (by decide)

/-- Trailing-class characters of regex A are never an open paren. -/
theorem isTrailA_ne_lp (x : Char) (h : isTrailA x = true) : x ≠ '(' := by
  intro heq; subst heq; exact absurd h (by decide)

/-! Claim theorems. -/

/-- C1: with no extra arguments, `markdown2asciidoc` invokes the converter
with `--atx-headers` when the version-query collaborator reports nothing,
the empty string, or any version below 3.0, and with
`--markdown-headings=atx` when it reports "3.0" or any higher version. -/
theorem c1_asciidoc_heading_flag (conv : PandocCall → String) (src : String) :
    (markdown2asciidoc none conv src none
      = fixAsciidocStr (conv ⟨src, _MARKDOWN_FMT, "asciidoc", some ["--atx-headers"]⟩))
    ∧ (markdown2asciidoc (some "") conv src none
      = fixAsciidocStr (conv ⟨src, _MARKDOWN_FMT, "asciidoc", some ["--atx-headers"]⟩))
    ∧ (∀ v : String, versionLT v "3.0" = true →
        markdown2asciidoc (some v) conv src none
          = fixAsciidocStr (conv ⟨src, _MARKDOWN_FMT, "asciidoc", some ["--atx-headers"]⟩))
    ∧ (∀ v : String, v ≠ "" → versionGE v "3.0" = true →
        markdown2asciidoc (some v) conv src none
          = fixAsciidocStr (conv ⟨src, _MARKDOWN_FMT, "asciidoc", some ["--markdown-headings=atx"]⟩)) := by
  refine ⟨rfl, rfl, ?_, ?_⟩
  · intro v hlt
    have hge : versionGE v "3.0" = false := by
      unfold versionGE
      unfold versionLT at hlt
      revert hlt
      cases versionCmp v "3.0" <;> simp
    simp [markdown2asciidoc, pyOr, asciidocAtxArgs, hge]
  · intro v hne hge
    have hb : (!(v == "")) = true := by simpa using hne
    simp [markdown2asciidoc, pyOr, asciidocAtxArgs, hb, hge]

/-- Witness for C1: the theorem applied at version "2.9" (below 3.0, legacy
flag) and at version "3.0" (new flag), with a converter stub echoing its
first extra argument. -/
theorem c1_asciidoc_heading_flag_witness :
    versionLT "2.9" "3.0" = true
    ∧ markdown2asciidoc (some "2.9") convHead "x" none = fixAsciidocStr "--atx-headers"
    ∧ ("3.0" ≠ "" ∧ versionGE "3.0" "3.0" = true)
    ∧ markdown2asciidoc (some "3.0") convHead "x" none
        = fixAsciidocStr "--markdown-headings=atx" := by
  refine ⟨by decide, ?_, ⟨by decide, by decide⟩, ?_⟩
  · exact (c1_asciidoc_heading_flag convHead "x").2.2.1 "2.9" (by decide)
  · exact (c1_asciidoc_heading_flag convHead "x").2.2.2 "3.0" (by decide) (by decide)

/-- C2 (evaluation at the failing input): the post-processing leaves
`(__some/path-1__)` entirely unchanged — in regex B's character class the
hyphen sits inside an accidental range from `/` to `:` and is therefore not
matched — while the hyphen-free `(__some/path__)` is rewritten, showing the
intended behavior. -/
theorem c2_hyphen_path_not_rewritten :
    fixAsciidocStr "(__some/path-1__)" = "(__some/path-1__)"
    ∧ fixAsciidocStr "(__some/path-1__)" ≠ "(_some/path-1_)"
    ∧ fixAsciidocStr "(__some/path__)" = "(_some/path_)"
    ∧ isInnerB '-' = false ∧ isInnerB '/' = true ∧ isInnerB ':' = true
    ∧ isInnerB '.' = true :=
  ⟨rfl, by decide, rfl, rfl, rfl, rfl, rfl⟩

/-- Counterexample to C3 as stated: a `__word__` followed by a space is NOT
rewritten — the trailing character class of the first substitution contains
colon, comma, period, newline and close-paren, but no space. -/
theorem c3_space_not_in_trailing_class :
    fixAsciidocStr "__word__ x" = "__word__ x"
    ∧ fixAsciidocStr "__word__ x" ≠ "_word_ x"
    ∧ isTrailA ' ' = false ∧ isTrailA ':' = true :=
  ⟨rfl, by decide, rfl, rfl⟩

/-- C3 (amended): a nonempty word of inner-class characters wrapped in
`__..__` at the start of the output and immediately followed by one of
colon, comma, period, newline, close-paren is rewritten to single-underscore
wrapping. -/
theorem c3_trailing_class_rewrite (w : List Char) (c : Char) (hw : w ≠ [])
    (ha : w.all isInnerA = true) (hc : isTrailA c = true) :
    fixAsciidoc ('_' :: '_' :: (w ++ '_' :: '_' :: [c]))
      = '_' :: (w ++ '_' :: [c]) := by
  obtain ⟨a, w, rfl⟩ : ∃ a t, w = a :: t := by
    cases w with
    | nil => exact absurd rfl hw
    | cons a t => exact ⟨a, t, rfl⟩
  simp only [List.all_cons, Bool.and_eq_true] at ha
  have hdd : containsDD ('_' :: '_' :: ((a :: w) ++ '_' :: '_' :: [c])) = true := rfl
  have hlen : ('_' :: '_' :: ((a :: w) ++ '_' :: '_' :: [c])).length
      = Nat.succ (w.length + 5) := by
    simp only [List.length_cons, List.length_append, List.length_nil]
  have hsubA : subA ('_' :: '_' :: ((a :: w) ++ '_' :: '_' :: [c]))
      = '_' :: ((a :: w) ++ '_' :: [c]) := by
    rw [subA, hlen]
    show goA (Nat.succ (w.length + 5)) false ('_' :: '_' :: a :: (w ++ '_' :: '_' :: [c]))
      = _
    rw [goA]
    simp [matchA_ww a w c ha.1 ha.2 hc, goA_nil]
  have hres : ∀ x ∈ '_' :: ((a :: w) ++ '_' :: [c]), x ≠ '(' := by
    intro x hx
    rcases List.mem_cons.mp hx with rfl | hx2
    · decide
    · rcases List.mem_append.mp hx2 with hx3 | hx4
      · rcases List.mem_cons.mp hx3 with heq | hx5
        · exact heq ▸ isInnerA_ne_lp a ha.1
        · have hxw := List.all_eq_true.mp ha.2 x hx5
          exact isInnerA_ne_lp x (by simpa using hxw)
      · rcases List.mem_cons.mp hx4 with rfl | hx6
        · decide
        · have hxc : x = c := by simpa using hx6
          subst hxc
          exact isTrailA_ne_lp x hc
  rw [fixAsciidoc, if_pos hdd, hsubA, subB, goB_no_lp _ _ hres]

/-- Witness for C3 (amended): the theorem applied at word "word" with
trailing colon, i.e. `__word__:` becomes `_word_:`. -/
theorem c3_trailing_class_rewrite_witness :
    ((['w','o','r','d'] : List Char) ≠ []
      ∧ (['w','o','r','d'] : List Char).all isInnerA = true
      ∧ isTrailA ':' = true)
    ∧ fixAsciidoc ('_' :: '_' :: (['w','o','r','d'] ++ '_' :: '_' :: [':']))
        = '_' :: (['w','o','r','d'] ++ '_' :: [':']) := by
  refine ⟨⟨by decide, by decide, by decide⟩, ?_⟩
  exact c3_trailing_class_rewrite ['w','o','r','d'] ':' (by decide) (by decide) (by decide)

/-- Counterexample to C4 as stated: the output `a__Example Text__.` contains
the substring `__Example Text__.` yet is returned entirely unchanged — the
regex requires a word boundary before the opening `__`, and `a` is a word
character. -/
theorem c4_word_boundary_blocks_rewrite :
    fixAsciidocStr "a__Example Text__." = "a__Example Text__."
    ∧ fixAsciidocStr "a__Example Text__." ≠ "a_Example Text_." :=
  ⟨rfl, by decide⟩

/-- C4 (amended): an output that is exactly `__Example Text__.` (so the
occurrence sits at a word boundary) is rewritten to `_Example Text_.`, and
every output containing no `__` at all is returned completely unchanged. -/
theorem c4_example_text_rewrite :
    fixAsciidocStr "__Example Text__." = "_Example Text_."
    ∧ (∀ s : String, containsDD s.data = false → fixAsciidocStr s = s) := by
  refine ⟨rfl, ?_⟩
  intro s h
  simp [fixAsciidocStr, fixAsciidoc, h]

/-- Witness for C4 (amended): the no-double-underscore branch applied at the
concrete output "plain text". -/
theorem c4_example_text_rewrite_witness :
    containsDD ("plain text".data) = false
    ∧ fixAsciidocStr "plain text" = "plain text" :=
  ⟨by decide, c4_example_text_rewrite.2 "plain text" (by decide)⟩

/-- C5: version comparison is semantic over dotted version strings, not
lexical: "10.0" compares greater than "3.0" and "3.0" greater than "2.9"
(each selecting the corresponding heading flag), even though "10.0" is
lexically smaller than "3.0". -/
theorem c5_semantic_version_comparison :
    versionGE "10.0" "3.0" = true
    ∧ versionLT "3.0" "10.0" = true
    ∧ versionGE "3.0" "2.9" = true
    ∧ versionLT "2.9" "3.0" = true
    ∧ lexCharLt "10.0".data "3.0".data = true
    ∧ asciidocAtxArgs (some "10.0") = ["--markdown-headings=atx"]
    ∧ asciidocAtxArgs (some "3.0") = ["--markdown-headings=atx"]
    ∧ asciidocAtxArgs (some "2.9") = ["--atx-headers"] := by decide

/-- C6: `markdown2html_pandoc` with no extra arguments invokes the converter
with exactly `--mathjax`; with a non-empty explicit list it invokes it with
exactly that list, not merged with the default. -/
theorem c6_html_pandoc_default_mathjax (conv : PandocCall → String) (src : String) :
    markdown2html_pandoc conv src none
      = conv ⟨src, _MARKDOWN_FMT, "html", some ["--mathjax"]⟩
    ∧ ∀ ea : List String, ea ≠ [] →
        markdown2html_pandoc conv src (some ea)
          = conv ⟨src, _MARKDOWN_FMT, "html", some ea⟩ := by
  refine ⟨rfl, ?_⟩
  intro ea h
  cases ea with
  | nil => exact absurd rfl h
  | cons e es => rfl

/-- Witness for C6: the theorem applied with the echoing converter stub, at
no extra arguments and at the non-empty list `["--toc"]`. -/
theorem c6_html_pandoc_default_mathjax_witness :
    markdown2html_pandoc convHead "x" none = "--mathjax"
    ∧ (["--toc"] : List String) ≠ []
    ∧ markdown2html_pandoc convHead "x" (some ["--toc"]) = "--toc" := by
  refine ⟨(c6_html_pandoc_default_mathjax convHead "x").1, by decide, ?_⟩
  exact (c6_html_pandoc_default_mathjax convHead "x").2 ["--toc"] (by decide)

/-- C7: when the in-process renderer is unavailable, the module-level
binding still exists (a total function), `markdown2html` is the mistune
filter alias, and calling it yields an import-missing error whose message
carries the original load-time failure reason; when the renderer is
available, calling it renders the source. -/
theorem c7_deferred_mistune_import_error (err src : String) :
    markdown2html none err src
      = Except.error ("markdown2html requires mistune: " ++ err)
    ∧ (∃ p, mistuneMessage err = p ++ err)
    ∧ markdown2html = markdown2html_mistune
    ∧ (∀ render : String → String,
        markdown2html (some render) err src = Except.ok (render src)) :=
  ⟨rfl, ⟨"markdown2html requires mistune: ", rfl⟩, rfl, fun _ => rfl⟩

/-- C8: `markdown2latex` (at its default reader format) and `markdown2rst`
invoke the converter once with the reader fixed to the extended markdown
dialect, writers "latex" and "rst" respectively, the caller's extra
arguments passed through unchanged, and return its output verbatim. -/
theorem c8_latex_rst_passthrough (conv : PandocCall → String) (src : String)
    (extra_args : Option (List String)) :
    markdown2latex conv src _MARKDOWN_FMT extra_args
      = conv ⟨src, "markdown+lists_without_preceding_blankline", "latex", extra_args⟩
    ∧ markdown2rst conv src extra_args
      = conv ⟨src, "markdown+lists_without_preceding_blankline", "rst", extra_args⟩ :=
  ⟨rfl, rfl⟩

/-- Counterexample to C9 as stated: on the input `(__ab__.cd__)` applying
substitution (a) then (b) differs from applying (b) then (a). -/
theorem c9_substitutions_not_commutative :
    subB (subA ("(__ab__.cd__)".data)) ≠ subA (subB ("(__ab__.cd__)".data)) := by
  decide

/-- C9 (amended): the post-processing applies substitution (a) then (b) in
that fixed order; on the spec's exemplar inputs the two orders coincide,
but the substitutions are not order-independent for every input. -/
theorem c9_fixed_order_exemplars_commute :
    fixAsciidoc ("(__ab__.cd__)".data) = subB (subA ("(__ab__.cd__)".data))
    ∧ subB (subA ("__Example Text__.".data)) = subA (subB ("__Example Text__.".data))
    ∧ subB (subA ("(__some/path__)".data)) = subA (subB ("(__some/path__)".data))
    ∧ subB (subA ("(__a__)".data)) = subA (subB ("(__a__)".data)) :=
  ⟨rfl, by decide, by decide, by decide⟩

/-- C10: supplying an explicitly empty extra-argument list behaves exactly
like supplying none: both `markdown2html_pandoc` and `markdown2asciidoc`
fall back to their defaults (`--mathjax`, respectively the version-selected
heading flag). -/
theorem c10_empty_extra_args_like_none (conv : PandocCall → String) (src : String)
    (v : Option String) :
    markdown2html_pandoc conv src (some [])
      = markdown2html_pandoc conv src none
    ∧ markdown2asciidoc v conv src (some [])
      = markdown2asciidoc v conv src none
    ∧ markdown2html_pandoc conv src (some [])
      = conv ⟨src, _MARKDOWN_FMT, "html", some ["--mathjax"]⟩
    ∧ markdown2asciidoc v conv src (some [])
      = fixAsciidocStr (conv ⟨src, _MARKDOWN_FMT, "asciidoc", some (asciidocAtxArgs v)⟩) :=
  ⟨rfl, rfl, rfl, rfl⟩

end NbMd
